import Mathlib

/-!
Verification development for the Unix child-exit notification and
orphan-reaping subsystem of `tokio-process` (file `src/unix/mod.rs` and the
`orphan`/`reap` modules it declares).

The shallow embedding models:
  * an OS process handle and its non-blocking exit-status probe
    (`Wait::try_wait` on `std::process::Child`);
  * the orphan queue (`AtomicOrphanQueue`): push and drain-and-reap;
  * the per-child reaper state machine (`Reaper`): per-poll algorithm,
    teardown on discard, kill;
  * the process-wide state holding the single static `ORPHAN_QUEUE`, the
    `GlobalOrphanQueue` delegating to it, and `spawn_child` / `stdio`.

The `orphan.rs` and `reap.rs` files themselves are not present in the
repository snapshot (only their declarations and call sites in
`src/unix/mod.rs` are), so those components are modelled from the
specification's contracts (spec sections 4.1, 4.2, 5 and 7); every such
definition is marked `Modelled from the spec:` in its doc comment.
`spawn_child`, `stdio` and `GlobalOrphanQueue` are embedded directly from
`src/unix/mod.rs`.
-/

namespace TokioProcess

/-- One OS child process as seen through the process table.
`alive` is the OS-level running state; `status` the numeric exit status once
the process terminates; `probeErr` scripts an OS-level failure of the
non-blocking exit-status query (`try_wait`); `killErr` scripts an OS refusal
of a termination request (`kill`). -/
structure OsProc where
  pid : Nat
  alive : Bool
  status : Int
  probeErr : Option Nat
  killErr : Option Nat
deriving DecidableEq, Repr

/-- Modelled from the spec: the Probe capability (spec section 3, "Process
handle"): a single non-blocking query; reports `none` while the child is
running, consumes and returns its exit status once it has exited, or fails at
the OS level.  Embeds `Wait::try_wait`, i.e. `process::Child::try_wait`
(`src/unix/mod.rs` lines 59-61). -/
def try_wait (p : OsProc) : Except Nat (Option Int) :=
  match p.probeErr with
  | some e => Except.error e
  | none => if p.alive then Except.ok none else Except.ok (some p.status)

/-- The numeric identifier of the child (`Wait::id`, `src/unix/mod.rs`
lines 55-57). -/
def OsProc.id (p : OsProc) : Nat := p.pid

/-- Exit status reported for a child terminated by a kill request
(signaled termination; non-zero). -/
def killedStatus : Int := 9

/-- Modelled from the spec: the OS side of a termination request (spec
sections 6 and 7, "Kill failure").  A scripted refusal is surfaced as an
error; otherwise a still-running child becomes exited with a signaled
(non-zero) status, and a kill of an already-exited child leaves it unchanged.
Embeds `Kill::kill` for `process::Child` (`src/unix/mod.rs` lines 64-68). -/
def osKill (p : OsProc) : Except Nat OsProc :=
  match p.killErr with
  | some e => Except.error e
  | none =>
    if p.alive then Except.ok { p with alive := false, status := killedStatus }
    else Except.ok p

/-- A handle has truly exited and its probe is error-free: the probe will
report an exit status. -/
def exitedH (p : OsProc) : Bool := p.probeErr.isNone && !p.alive

/-- The orphan queue's contents: an order-irrelevant collection of process
handles whose owning reaper was discarded before exit (spec section 3,
"Orphan queue"). -/
abbrev OrphanQueueState := List OsProc

/-- Modelled from the spec: `enqueue(handle)` of the orphan queue contract
(spec section 4.1); accepts ownership of a handle, never fails.  Stands in
for `AtomicOrphanQueue::push_orphan` (declared in `src/unix/mod.rs` line 39,
used at line 84; `orphan.rs` absent from the snapshot). -/
def push_orphan (q : OrphanQueueState) (o : OsProc) : OrphanQueueState :=
  o :: q

/-- A queued orphan is kept by a drain exactly when its probe reports
"not yet exited"; an exited orphan is discarded (reclaimed), and a probe
failure means "give up on this orphan" and is also removed (spec section 7,
propagation policy). -/
def orphanKept (p : OsProc) : Bool :=
  match try_wait p with
  | Except.ok none => true
  | _ => false

/-- Modelled from the spec: `drain_and_reap()` of the orphan queue contract
(spec section 4.1): probe every queued handle, discard the exited ones (and,
per section 7, the ones whose probe fails), keep the rest.  Stands in for
`AtomicOrphanQueue::reap_orphans` (declared in `src/unix/mod.rs` line 39,
used at line 88; `orphan.rs` absent from the snapshot). -/
def reap_orphans (q : OrphanQueueState) : OrphanQueueState :=
  q.filter orphanKept

/-- A terminal I/O failure of a reaper: either a propagated OS error from its
own probe, or the fatal condition that the signal-notification sequence has
permanently ended (spec section 7). -/
inductive IOErr where
  | os (code : Nat)
  | streamEnded
deriving DecidableEq, Repr

/-- One observation when polling the signal-notification sequence:
an available coalesced-signal event, no event yet (suspend), or the
sequence has permanently ended. -/
inductive SigPoll where
  | event
  | pending
  | ended
deriving DecidableEq, Repr

/-- The signal-notification sequence, scripted as the list of observations
successive polls of the stream will yield; an empty script means no event is
available (the reaper suspends). -/
abbrev SigStream := List SigPoll

/-- Modelled from the spec: the reaper's states (spec section 4.2):
`active` holds the owned process handle and the child has not yet been
observed to exit; `exited` is terminal and records the final result already
produced to the caller, so that a repeated poll never re-probes the OS and
never changes the result (spec section 8, "Idempotent terminal state"). -/
inductive ReaperState where
  | active (h : OsProc)
  | exited (res : Except IOErr Int)
deriving Repr

/-- Modelled from the spec: the reaper (spec section 3): the owned process
handle (until exit is observed) together with its owned subscription to the
signal-notification sequence; the shared orphan queue is passed at each
poll.  Stands in for `Reaper` (`reap.rs`, absent from the snapshot;
declared in `src/unix/mod.rs` line 40, used at lines 94 and 116). -/
structure Reaper where
  state : ReaperState
  sig : SigStream
deriving Repr

/-- The outcome of one poll of a reaper: still pending, resolved with an
exit status, or resolved with a terminal I/O failure. -/
inductive PollRes where
  | pendingR
  | okR (status : Int)
  | errR (e : IOErr)
deriving DecidableEq, Repr

/-- The poll outcome corresponding to a stored final result. -/
def resOf : Except IOErr Int → PollRes
  | Except.ok s => PollRes.okR s
  | Except.error e => PollRes.errR e

/-- Modelled from the spec: the per-poll algorithm of an `Active` reaper
(spec section 4.2): (1) immediately probe the owned handle, independent of
any notification; (2) a reported exit status resolves the reaper to
`Exited`, a probe failure is propagated immediately as the final result
(spec section 7); (3) otherwise poll the signal-notification sequence in a
loop: an available event triggers `drain_and_reap` on the orphan queue and
a re-probe, no event suspends, and a permanently ended sequence is a fatal
I/O failure.  Returns the poll outcome, the reaper's next state with the
remaining signal script, and the updated orphan queue. -/
def pollActive (h : OsProc) (sig : SigStream) (q : OrphanQueueState) :
    PollRes × Reaper × OrphanQueueState :=
  match try_wait h with
  | Except.error e =>
      (PollRes.errR (IOErr.os e),
       ⟨ReaperState.exited (Except.error (IOErr.os e)), sig⟩, q)
  | Except.ok (some s) =>
      (PollRes.okR s, ⟨ReaperState.exited (Except.ok s), sig⟩, q)
  | Except.ok none =>
      match sig with
      | [] => (PollRes.pendingR, ⟨ReaperState.active h, []⟩, q)
      | SigPoll.pending :: rest =>
          (PollRes.pendingR, ⟨ReaperState.active h, rest⟩, q)
      | SigPoll.ended :: rest =>
          (PollRes.errR IOErr.streamEnded,
           ⟨ReaperState.exited (Except.error IOErr.streamEnded), rest⟩, q)
      | SigPoll.event :: rest => pollActive h rest (reap_orphans q)

/-- Modelled from the spec: polling the reaper.  A reaper already in the
terminal state returns its stored result unchanged, touching neither the OS
nor the orphan queue; an active reaper runs the per-poll algorithm. -/
def reaperPoll (r : Reaper) (q : OrphanQueueState) :
    PollRes × Reaper × OrphanQueueState :=
  match r.state with
  | ReaperState.exited res => (resOf res, r, q)
  | ReaperState.active h => pollActive h r.sig q

/-- Modelled from the spec: the teardown path (spec sections 4.2 and 5,
"Cancellation"): a reaper discarded while still `Active` transfers its owned
process handle to the orphan queue, unchanged; a reaper discarded after
resolving leaves the queue untouched.  Stands in for `Reaper`'s drop
implementation (`reap.rs`, absent from the snapshot). -/
def reaperDrop (r : Reaper) (q : OrphanQueueState) : OrphanQueueState :=
  match r.state with
  | ReaperState.active h => push_orphan q h
  | ReaperState.exited _ => q

/-- Modelled from the spec: the kill operation on a reaper (spec section 6:
synchronous request to the OS, independent of wait state).  A failure is
surfaced to the caller and leaves the reaper unchanged; a success records
the OS-side effect on the owned handle.  A reaper that has already resolved
has no handle left to signal, which the OS reports as "no such process"
(spec section 7 lists "process already exited" as a kill failure). -/
def reaperKill (r : Reaper) : Except Nat Unit × Reaper :=
  match r.state with
  | ReaperState.active h =>
    match osKill h with
    | Except.error e => (Except.error e, r)
    | Except.ok h' => (Except.ok (), ⟨ReaperState.active h', r.sig⟩)
  | ReaperState.exited _ => (Except.error 3, r)

/-- The process-wide mutable state: the single static `ORPHAN_QUEUE`
(`src/unix/mod.rs` lines 70-72, a lazily-initialized
`AtomicOrphanQueue<process::Child>` living for the whole process). -/
structure ProcessState where
  orphanQueue : OrphanQueueState
deriving Repr

namespace GlobalOrphanQueue

/-- `GlobalOrphanQueue::push_orphan` (`src/unix/mod.rs` lines 83-85):
delegates to `ORPHAN_QUEUE.push_orphan`, the single static queue. -/
def push_orphan (st : ProcessState) (o : OsProc) : ProcessState :=
  { st with orphanQueue := TokioProcess.push_orphan st.orphanQueue o }

/-- `GlobalOrphanQueue::reap_orphans` (`src/unix/mod.rs` lines 87-89):
delegates to `ORPHAN_QUEUE.reap_orphans`, the single static queue. -/
def reap_orphans (st : ProcessState) : ProcessState :=
  { st with orphanQueue := TokioProcess.reap_orphans st.orphanQueue }

end GlobalOrphanQueue

/-- `Reaper::new(child, GlobalOrphanQueue, signal)` as called by
`spawn_child` (`src/unix/mod.rs` line 116): a fresh reaper owning the
spawned handle, starting `Active`, subscribed to the given
signal-notification stream.  Its orphan-queue capability is
`GlobalOrphanQueue`: in this embedding the queue is injected from
`ProcessState.orphanQueue` at every poll and teardown (see `Child.pollC`
and `Child.dropC`). -/
def Reaper.new (h : OsProc) (sig : SigStream) : Reaper :=
  ⟨ReaperState.active h, sig⟩

/-- The Unix `Child` (`src/unix/mod.rs` lines 92-95): wraps the reaper over
the real process handle, `GlobalOrphanQueue`, and the boxed SIGCHLD
stream. -/
structure Child where
  inner : Reaper
deriving Repr

/-- `impl Future for Child` (`src/unix/mod.rs` lines 136-142): polling the
child polls its inner reaper; the reaper's `GlobalOrphanQueue` capability
reads and writes the single static queue, here the `orphanQueue` field of
the process state. -/
def Child.pollC (c : Child) (st : ProcessState) :
    PollRes × Child × ProcessState :=
  let r := reaperPoll c.inner st.orphanQueue
  (r.1, ⟨r.2.1⟩, ⟨r.2.2⟩)

/-- `impl Kill for Child` (`src/unix/mod.rs` lines 130-134): delegates to
the inner reaper's kill. -/
def Child.killC (c : Child) : Except Nat Unit × Child :=
  let k := reaperKill c.inner
  (k.1, ⟨k.2⟩)

/-- Dropping the Unix `Child` drops its inner reaper, whose teardown path
(modelled from the spec, see `reaperDrop`) pushes a still-owned handle onto
its queue capability — `GlobalOrphanQueue`, i.e. the single static
`ORPHAN_QUEUE` field of the process state. -/
def Child.dropC (c : Child) (st : ProcessState) : ProcessState :=
  { st with orphanQueue := reaperDrop c.inner st.orphanQueue }

/-- A raw stdio handle of the spawned child (`child.stdin` / `stdout` /
`stderr`), with the outcomes of the OS calls `stdio` will perform on it:
`getflRes` is `fcntl(fd, F_GETFL)` (`none` means it returned `-1`),
`setflErr` says whether `fcntl(fd, F_SETFL, r | O_NONBLOCK)` returns `-1`,
`osErr` is the value of `io::Error::last_os_error()` at that point, and
`registerErr` a failure of `PollEvented::new_with_handle`. -/
structure RawIo where
  fd : Nat
  getflRes : Option Nat
  setflErr : Bool
  osErr : Nat
  registerErr : Option Nat
deriving DecidableEq, Repr

/-- The Linux `O_NONBLOCK` flag bit. -/
def O_NONBLOCK : Nat := 2048

/-- A stdio handle wired into the event loop
(`PollEvented<Fd<T>>`, `src/unix/mod.rs` lines 211-213): the fd with its
flags now including `O_NONBLOCK`. -/
structure Evented where
  fd : Nat
  flags : Nat
deriving DecidableEq, Repr

/-- `stdio` (`src/unix/mod.rs` lines 215-238): `None` passes through;
otherwise set the fd nonblocking — a failing `F_GETFL` or `F_SETFL`
returns the last OS error — then register it with the event loop. -/
def stdio (o : Option RawIo) : Except Nat (Option Evented) :=
  match o with
  | none => Except.ok none
  | some io =>
    match io.getflRes with
    | none => Except.error io.osErr
    | some r =>
      if io.setflErr then Except.error io.osErr
      else
        match io.registerErr with
        | some e => Except.error e
        | none => Except.ok (some ⟨io.fd, r ||| O_NONBLOCK⟩)

/-- A command about to be spawned (`process::Command`): the outcome of
`cmd.spawn()` and the three stdio handles of the resulting child. -/
structure Command where
  spawnRes : Except Nat OsProc
  stdin : Option RawIo
  stdout : Option RawIo
  stderr : Option RawIo
deriving Repr

/-- `SpawnedChild` (`src/unix/mod.rs` lines 114-121). -/
structure SpawnedChild where
  child : Child
  stdin : Option Evented
  stdout : Option Evented
  stderr : Option Evented
deriving Repr

/-- `spawn_child` (`src/unix/mod.rs` lines 105-122): spawn the process,
make each present stdio handle nonblocking (`?` short-circuits on the first
failure), build the SIGCHLD stream, and wrap the handle in
`Reaper::new(child, GlobalOrphanQueue, signal)`.  The signal stream script
is a parameter (its construction, `Signal::with_handle(SIGCHLD, handle)`,
is lazy and infallible at this point).  The process state is threaded to
record that no path of `spawn_child` touches the orphan queue. -/
def spawn_child (cmd : Command) (sig : SigStream) (st : ProcessState) :
    Except Nat SpawnedChild × ProcessState :=
  match cmd.spawnRes with
  | Except.error e => (Except.error e, st)
  | Except.ok child =>
    match stdio cmd.stdin with
    | Except.error e => (Except.error e, st)
    | Except.ok stdin =>
      match stdio cmd.stdout with
      | Except.error e => (Except.error e, st)
      | Except.ok stdout =>
        match stdio cmd.stderr with
        | Except.error e => (Except.error e, st)
        | Except.ok stderr =>
          (Except.ok { child := ⟨Reaper.new child sig⟩,
                       stdin := stdin, stdout := stdout, stderr := stderr },
           st)

/-- Global state of any number of in-flight `drain_and_reap()` calls over
the shared orphan queue: the queue itself, the handles currently removed by
some caller and about to be probed by that caller alone, and the total
number of successful reclaims across all callers. -/
structure DrainSys where
  queue : List OsProc
  held : List OsProc
  reclaimed : Nat
deriving Repr

/-- One atomic step of one of the interleaved `drain_and_reap()` callers:
`take` atomically removes the queue's next handle into the taker's hands
(the queue serializes ownership transfer per handle at removal time);
`probe j` lets the caller holding the `j`-th removed handle probe it and
either reclaim it (exited), re-enqueue it (still running), or give it up
(probe failure, spec section 7). -/
inductive DrainStep where
  | take
  | probe (j : Nat)
deriving DecidableEq, Repr

/-- Modelled from the spec: the atomic-step semantics of concurrent
`drain_and_reap()` calls (spec sections 4.1 and 5): removal from the shared
queue is serialized, probing happens outside the queue on the single
caller's own copy, and a not-yet-exited handle is re-enqueued for the next
drain.  Stands in for the interleaving behaviour of
`AtomicOrphanQueue::reap_orphans` (`orphan.rs` absent from the
snapshot). -/
def dstep (sys : DrainSys) : DrainStep → DrainSys
  | DrainStep.take =>
    match sys.queue with
    | [] => sys
    | h :: rest => ⟨rest, h :: sys.held, sys.reclaimed⟩
  | DrainStep.probe j =>
    match sys.held[j]? with
    | none => sys
    | some h =>
      let held' := sys.held.eraseIdx j
      match try_wait h with
      | Except.ok (some _) => ⟨sys.queue, held', sys.reclaimed + 1⟩
      | Except.ok none => ⟨sys.queue ++ [h], held', sys.reclaimed⟩
      | Except.error _ => ⟨sys.queue, held', sys.reclaimed⟩

/-- Run an arbitrary interleaving of steps of concurrent
`drain_and_reap()` callers. -/
def drun (sys : DrainSys) (steps : List DrainStep) : DrainSys :=
  steps.foldl dstep sys

/-- The number of exited (reclaimable) handles in a list. -/
def countExited (l : List OsProc) : Nat := l.countP (fun p => exitedH p)

/-- The conserved quantity of the drain system: reclaims already performed
plus exited handles still in the queue or in some caller's hands. -/
def measureD (sys : DrainSys) : Nat :=
  sys.reclaimed + countExited sys.queue + countExited sys.held

/-! Equation lemmas for one poll of an active reaper, by the outcome of the
initial probe. -/

lemma pollActive_err (h : OsProc) (sig : SigStream) (q : OrphanQueueState)
    (e : Nat) (hw : try_wait h = Except.error e) :
    pollActive h sig q =
      (PollRes.errR (IOErr.os e),
       ⟨ReaperState.exited (Except.error (IOErr.os e)), sig⟩, q) := by
  cases sig with
  | nil => simp [pollActive, hw]
  | cons s rest => cases s <;> simp [pollActive, hw]

lemma pollActive_some (h : OsProc) (sig : SigStream) (q : OrphanQueueState)
    (s : Int) (hw : try_wait h = Except.ok (some s)) :
    pollActive h sig q =
      (PollRes.okR s, ⟨ReaperState.exited (Except.ok s), sig⟩, q) := by
  cases sig with
  | nil => simp [pollActive, hw]
  | cons sp rest => cases sp <;> simp [pollActive, hw]

lemma pollActive_none_nil (h : OsProc) (q : OrphanQueueState)
    (hw : try_wait h = Except.ok none) :
    pollActive h [] q = (PollRes.pendingR, ⟨ReaperState.active h, []⟩, q) := by
  simp [pollActive, hw]

lemma pollActive_none_pending (h : OsProc) (rest : SigStream)
    (q : OrphanQueueState) (hw : try_wait h = Except.ok none) :
    pollActive h (SigPoll.pending :: rest) q =
      (PollRes.pendingR, ⟨ReaperState.active h, rest⟩, q) := by
  simp [pollActive, hw]

lemma pollActive_none_ended (h : OsProc) (rest : SigStream)
    (q : OrphanQueueState) (hw : try_wait h = Except.ok none) :
    pollActive h (SigPoll.ended :: rest) q =
      (PollRes.errR IOErr.streamEnded,
       ⟨ReaperState.exited (Except.error IOErr.streamEnded), rest⟩, q) := by
  simp [pollActive, hw]

lemma pollActive_none_event (h : OsProc) (rest : SigStream)
    (q : OrphanQueueState) (hw : try_wait h = Except.ok none) :
    pollActive h (SigPoll.event :: rest) q =
      pollActive h rest (reap_orphans q) := by
  simp [pollActive, hw]

/-- A probe that reports an exit status can only come from an error-free
handle that has exited. -/
lemma try_wait_some_iff (h : OsProc) (s : Int) :
    try_wait h = Except.ok (some s) ↔
      h.probeErr = none ∧ h.alive = false ∧ h.status = s := by
  unfold try_wait
  cases hpe : h.probeErr <;> cases ha : h.alive <;> simp

/-- An exited, error-free handle is not kept by a drain of the orphan
queue. -/
lemma not_kept_of_exited (p : OsProc) (he : exitedH p = true) :
    orphanKept p = false := by
  unfold exitedH at he
  cases hpe : p.probeErr <;> cases ha : p.alive <;>
    simp [hpe, ha, Option.isNone] at he ⊢ <;>
    simp [orphanKept, try_wait, hpe, ha]

/-- Drain only removes handles from the queue: every survivor was already
queued. -/
lemma mem_of_mem_reap (p : OsProc) (q : OrphanQueueState)
    (hp : p ∈ reap_orphans q) : p ∈ q :=
  (List.mem_filter.mp hp).1

/-- The queue a poll of an active reaper leaves behind only ever loses
handles: every survivor was already present before the poll. -/
lemma pollActive_queue_sub (sig : SigStream) (h : OsProc)
    (q : OrphanQueueState) :
    ∀ p ∈ (pollActive h sig q).2.2, p ∈ q := by
  induction sig generalizing q with
  | nil =>
    intro p hp
    rcases hw : try_wait h with e | os
    · rw [pollActive_err h [] q e hw] at hp; exact hp
    · cases os with
      | none => rw [pollActive_none_nil h q hw] at hp; exact hp
      | some s => rw [pollActive_some h [] q s hw] at hp; exact hp
  | cons s rest ih =>
    intro p hp
    rcases hw : try_wait h with e | os
    · rw [pollActive_err h _ q e hw] at hp; exact hp
    · cases os with
      | some st => rw [pollActive_some h _ q st hw] at hp; exact hp
      | none =>
        cases s with
        | pending => rw [pollActive_none_pending h rest q hw] at hp; exact hp
        | ended => rw [pollActive_none_ended h rest q hw] at hp; exact hp
        | event =>
          rw [pollActive_none_event h rest q hw] at hp
          exact mem_of_mem_reap p q (ih (reap_orphans q) p hp)

/-- An exited, error-free handle never survives a poll in which the reaper
observes at least one notification event. -/
lemma pollActive_event_removes (h p : OsProc) (rest : SigStream)
    (q : OrphanQueueState) (hw : try_wait h = Except.ok none)
    (he : exitedH p = true) :
    p ∉ (pollActive h (SigPoll.event :: rest) q).2.2 := by
  rw [pollActive_none_event h rest q hw]
  intro hp
  have hmem : p ∈ reap_orphans q :=
    pollActive_queue_sub rest h (reap_orphans q) p hp
  have hk : orphanKept p = true := (List.mem_filter.mp hmem).2
  rw [not_kept_of_exited p he] at hk
  exact Bool.false_ne_true hk

/-- A probe that reports an exit status implies the handle had exited with
an error-free probe. -/
lemma exitedH_of_some (h : OsProc) (s : Int)
    (hw : try_wait h = Except.ok (some s)) : exitedH h = true := by
  rcases (try_wait_some_iff h s).mp hw with ⟨hpe, ha, _⟩
  simp [exitedH, hpe, ha]

/-- A probe that reports "not yet exited" implies the handle is not
reclaimable. -/
lemma exitedH_of_none (h : OsProc)
    (hw : try_wait h = Except.ok none) : exitedH h = false := by
  unfold try_wait at hw
  cases hpe : h.probeErr <;> cases ha : h.alive <;>
    simp [hpe, ha] at hw ⊢ <;> simp [exitedH, hpe, ha]

/-- A failing probe implies the handle is not counted as reclaimable. -/
lemma exitedH_of_err (h : OsProc) (e : Nat)
    (hw : try_wait h = Except.error e) : exitedH h = false := by
  unfold try_wait at hw
  cases hpe : h.probeErr <;> cases ha : h.alive <;>
    simp [hpe, ha] at hw ⊢ <;> simp [exitedH, hpe, ha]

/-- Removing the handle some caller atomically took splits the count of
reclaimable handles. -/
lemma countP_eraseIdx_of_get (l : List OsProc) (j : Nat) (h : OsProc)
    (hj : l[j]? = some h) (p : OsProc → Bool) :
    l.countP p = (l.eraseIdx j).countP p + (if p h then 1 else 0) := by
  induction l generalizing j with
  | nil => simp at hj
  | cons a t ih =>
    cases j with
    | zero =>
      simp at hj
      subst hj
      simp [List.countP_cons, List.eraseIdx]
    | succ k =>
      simp at hj
      have := ih k hj
      simp [List.countP_cons, List.eraseIdx, this]
      omega

/-- One atomic step of any of the interleaved drain callers conserves the
sum of reclaims performed so far and reclaimable handles still in the
queue or in some caller's hands: a handle is reclaimed exactly when it
leaves that sum, so no step can reap a handle twice. -/
lemma measureD_dstep (sys : DrainSys) (a : DrainStep) :
    measureD (dstep sys a) = measureD sys := by
  cases a with
  | take =>
    rcases hq : sys.queue with _ | ⟨h, rest⟩
    · simp [dstep, hq]
    · simp [dstep, hq, measureD, countExited, List.countP_cons]
      omega
  | probe j =>
    rcases hj : sys.held[j]? with _ | h
    · simp [dstep, hj]
    · have hcount := countP_eraseIdx_of_get sys.held j h hj (fun p => exitedH p)
      rcases hw : try_wait h with e | os
      · have hex := exitedH_of_err h e hw
        simp [hex] at hcount
        simp [dstep, hj, hw, measureD, countExited, hcount]
      · cases os with
        | none =>
          have hex := exitedH_of_none h hw
          simp [hex] at hcount
          simp [dstep, hj, hw, measureD, countExited, hcount,
                List.countP_append, List.countP_cons, hex]
        | some s =>
          have hex := exitedH_of_some h s hw
          simp [hex] at hcount
          simp [dstep, hj, hw, measureD, countExited, hcount]
          omega

/-- Any interleaving of drain-caller steps conserves the measure. -/
lemma measureD_drun (steps : List DrainStep) (sys : DrainSys) :
    measureD (drun sys steps) = measureD sys := by
  induction steps generalizing sys with
  | nil => rfl
  | cons a t ih =>
    have hstep : drun sys (a :: t) = drun (dstep sys a) t := rfl
    rw [hstep, ih (dstep sys a), measureD_dstep]

/-- A poll can only resolve with an exit status that the very probe of the
reaper's own handle reported. -/
lemma pollActive_okR_probe (sig : SigStream) (h : OsProc)
    (q : OrphanQueueState) (s : Int)
    (hr : (pollActive h sig q).1 = PollRes.okR s) :
    try_wait h = Except.ok (some s) := by
  induction sig generalizing q with
  | nil =>
    rcases hw : try_wait h with e | os
    · rw [pollActive_err h [] q e hw] at hr; simp at hr
    · cases os with
      | none => rw [pollActive_none_nil h q hw] at hr; simp at hr
      | some st =>
        rw [pollActive_some h [] q st hw] at hr
        simp at hr
        rw [hr]
  | cons sp rest ih =>
    rcases hw : try_wait h with e | os
    · rw [pollActive_err h _ q e hw] at hr; simp at hr
    · cases os with
      | some st =>
        rw [pollActive_some h _ q st hw] at hr
        simp at hr
        rw [hr]
      | none =>
        cases sp with
        | pending => rw [pollActive_none_pending h rest q hw] at hr; simp at hr
        | ended => rw [pollActive_none_ended h rest q hw] at hr; simp at hr
        | event =>
          rw [pollActive_none_event h rest q hw] at hr
          have h2 := ih (reap_orphans q) hr
          rw [hw] at h2
          exact h2

/-- Claim C1: a reaper discarded while still `Active` hands its owned
process handle to the orphan queue verbatim — the handle enters the queue
with its pid and running state unchanged, so the child is not killed as a
side effect — and the only mutation is that single enqueue: the resulting
queue is exactly the old queue with the handle added. -/
theorem claim_C1 (h : OsProc) (sig : SigStream) (q : OrphanQueueState) :
    reaperDrop ⟨ReaperState.active h, sig⟩ q = h :: q
    ∧ (∀ p ∈ reaperDrop ⟨ReaperState.active h, sig⟩ q, p = h ∨ p ∈ q)
    ∧ (h.alive = true →
        ∃ p ∈ reaperDrop ⟨ReaperState.active h, sig⟩ q,
          p.pid = h.pid ∧ p.alive = true) := by
  refine ⟨rfl, ?_, ?_⟩
  · intro p hp
    exact List.mem_cons.mp hp
  · intro ha
    exact ⟨h, List.mem_cons_self h q, rfl, ha⟩

/-- Witness for claim C1: discarding an active reaper over a running child
leaves that child present in the queue, still running. -/
theorem claim_C1_witness :
    ∃ p ∈ reaperDrop ⟨ReaperState.active ⟨1, true, 0, none, none⟩, []⟩ [],
      p.pid = 1 ∧ p.alive = true :=
  (claim_C1 ⟨1, true, 0, none, none⟩ [] []).2.2 rfl

/-- Claim C2: a handle handed to the orphan queue when its reaper was
discarded, whose child later exits, is no longer present in the orphan
queue after any other live reaper (own child still running, probe
error-free) observes a subsequent notification event: the event triggers a
drain that reclaims the orphan. -/
theorem claim_C2 (p hLive : OsProc) (sigD rest : SigStream)
    (q : OrphanQueueState)
    (hpErr : p.probeErr = none) (hpAlive : p.alive = true)
    (hlAlive : hLive.alive = true) (hlErr : hLive.probeErr = none) :
    { p with alive := false } ∉
      (pollActive hLive (SigPoll.event :: rest)
        ((reaperDrop ⟨ReaperState.active p, sigD⟩ q).map
          (fun x => if x = p then { p with alive := false } else x))).2.2
    ∧ p ∉
      (pollActive hLive (SigPoll.event :: rest)
        ((reaperDrop ⟨ReaperState.active p, sigD⟩ q).map
          (fun x => if x = p then { p with alive := false } else x))).2.2 := by
  have hwl : try_wait hLive = Except.ok none := by
    simp [try_wait, hlErr, hlAlive]
  constructor
  · apply pollActive_event_removes hLive _ rest _ hwl
    simp [exitedH, hpErr]
  · intro hp
    have hq2 := pollActive_queue_sub (SigPoll.event :: rest) hLive _ p hp
    rcases List.mem_map.mp hq2 with ⟨x, _, hxe⟩
    by_cases hxp : x = p
    · rw [if_pos hxp] at hxe
      have halive : ({ p with alive := false } : OsProc).alive = p.alive :=
        congrArg OsProc.alive hxe
      rw [hpAlive] at halive
      simp at halive
    · rw [if_neg hxp] at hxe
      exact hxp hxe

/-- Witness for claim C2: a concrete abandoned child, exited after its
reaper was discarded, is absent from the queue after another live reaper
observes one event. -/
theorem claim_C2_witness :
    ({ (⟨1, true, 0, none, none⟩ : OsProc) with alive := false }) ∉
      (pollActive ⟨2, true, 0, none, none⟩ [SigPoll.event]
        ((reaperDrop ⟨ReaperState.active ⟨1, true, 0, none, none⟩, []⟩ []).map
          (fun x => if x = ⟨1, true, 0, none, none⟩ then
            { (⟨1, true, 0, none, none⟩ : OsProc) with alive := false }
          else x))).2.2
    ∧ (⟨1, true, 0, none, none⟩ : OsProc) ∉
      (pollActive ⟨2, true, 0, none, none⟩ [SigPoll.event]
        ((reaperDrop ⟨ReaperState.active ⟨1, true, 0, none, none⟩, []⟩ []).map
          (fun x => if x = ⟨1, true, 0, none, none⟩ then
            { (⟨1, true, 0, none, none⟩ : OsProc) with alive := false }
          else x))).2.2 :=
  claim_C2 ⟨1, true, 0, none, none⟩ ⟨2, true, 0, none, none⟩ [] [] []
    rfl rfl rfl rfl

/-- Claim C3: over every interleaving of atomic steps of concurrent
`drain_and_reap()` callers on an orphan queue of `N` exited handles, the
number of successful reclaims plus the exited handles still queued or held
is always exactly `N`; hence never more than `N` reclaims occur, and an
interleaving that runs every drain to completion (queue empty, no handle
still held) performs exactly `N` reclaims in total across all callers. -/
theorem claim_C3 (steps : List DrainStep) (q : List OsProc)
    (hex : ∀ p ∈ q, exitedH p = true) :
    (drun ⟨q, [], 0⟩ steps).reclaimed
        + countExited (drun ⟨q, [], 0⟩ steps).queue
        + countExited (drun ⟨q, [], 0⟩ steps).held = q.length
    ∧ (drun ⟨q, [], 0⟩ steps).reclaimed ≤ q.length
    ∧ ((drun ⟨q, [], 0⟩ steps).queue = [] →
        (drun ⟨q, [], 0⟩ steps).held = [] →
        (drun ⟨q, [], 0⟩ steps).reclaimed = q.length) := by
  have hinit : measureD ⟨q, [], 0⟩ = q.length := by
    simp [measureD, countExited]
    exact hex
  have hm := measureD_drun steps ⟨q, [], 0⟩
  rw [hinit] at hm
  unfold measureD at hm
  refine ⟨hm, ?_, ?_⟩
  · omega
  · intro hq hh
    rw [hq, hh] at hm
    simpa [countExited] using hm

/-- Witness for claim C3: two exited handles, two callers interleaving
take and probe steps: exactly two reclaims. -/
theorem claim_C3_witness :
    (drun ⟨[⟨1, false, 0, none, none⟩, ⟨2, false, 7, none, none⟩], [], 0⟩
        [DrainStep.take, DrainStep.take, DrainStep.probe 0,
         DrainStep.probe 0]).reclaimed
        + countExited (drun ⟨[⟨1, false, 0, none, none⟩,
            ⟨2, false, 7, none, none⟩], [], 0⟩
          [DrainStep.take, DrainStep.take, DrainStep.probe 0,
           DrainStep.probe 0]).queue
        + countExited (drun ⟨[⟨1, false, 0, none, none⟩,
            ⟨2, false, 7, none, none⟩], [], 0⟩
          [DrainStep.take, DrainStep.take, DrainStep.probe 0,
           DrainStep.probe 0]).held = 2
    ∧ (drun ⟨[⟨1, false, 0, none, none⟩, ⟨2, false, 7, none, none⟩], [], 0⟩
        [DrainStep.take, DrainStep.take, DrainStep.probe 0,
         DrainStep.probe 0]).reclaimed ≤ 2
    ∧ ((drun ⟨[⟨1, false, 0, none, none⟩, ⟨2, false, 7, none, none⟩], [], 0⟩
        [DrainStep.take, DrainStep.take, DrainStep.probe 0,
         DrainStep.probe 0]).queue = [] →
       (drun ⟨[⟨1, false, 0, none, none⟩, ⟨2, false, 7, none, none⟩], [], 0⟩
        [DrainStep.take, DrainStep.take, DrainStep.probe 0,
         DrainStep.probe 0]).held = [] →
       (drun ⟨[⟨1, false, 0, none, none⟩, ⟨2, false, 7, none, none⟩], [], 0⟩
        [DrainStep.take, DrainStep.take, DrainStep.probe 0,
         DrainStep.probe 0]).reclaimed = 2) :=
  claim_C3 [DrainStep.take, DrainStep.take, DrainStep.probe 0,
            DrainStep.probe 0]
    [⟨1, false, 0, none, none⟩, ⟨2, false, 7, none, none⟩] (by decide)

/-- Claim C4: a reaper whose signal-notification sequence permanently ends
— after any number of immediately available events, including none at all —
resolves on that poll to the terminal I/O failure `streamEnded` instead of
suspending, provided its own child is still running (so the probe cannot
resolve it first). -/
theorem claim_C4 (h : OsProc) (k : Nat) (rest : SigStream)
    (q : OrphanQueueState) (ha : h.alive = true) (hp : h.probeErr = none) :
    (pollActive h (List.replicate k SigPoll.event ++ SigPoll.ended :: rest)
        q).1 = PollRes.errR IOErr.streamEnded
    ∧ (pollActive h (List.replicate k SigPoll.event ++ SigPoll.ended :: rest)
        q).2.1.state = ReaperState.exited (Except.error IOErr.streamEnded) := by
  have hw : try_wait h = Except.ok none := by simp [try_wait, hp, ha]
  induction k generalizing q with
  | zero =>
    rw [List.replicate_zero, List.nil_append,
        pollActive_none_ended h rest q hw]
    exact ⟨rfl, rfl⟩
  | succ n ih =>
    have hrepl : List.replicate (n + 1) SigPoll.event ++ SigPoll.ended :: rest
        = SigPoll.event ::
            (List.replicate n SigPoll.event ++ SigPoll.ended :: rest) := by
      simp [List.replicate_succ]
    rw [hrepl, pollActive_none_event h _ q hw]
    exact ih (reap_orphans q)

/-- Witness for claim C4: a reaper over a notification sequence that ends
immediately with no events resolves to the fatal I/O failure. -/
theorem claim_C4_witness :
    (pollActive ⟨1, true, 0, none, none⟩
        (List.replicate 0 SigPoll.event ++ SigPoll.ended :: []) []).1
        = PollRes.errR IOErr.streamEnded
    ∧ (pollActive ⟨1, true, 0, none, none⟩
        (List.replicate 0 SigPoll.event ++ SigPoll.ended :: []) []).2.1.state
        = ReaperState.exited (Except.error IOErr.streamEnded) :=
  claim_C4 ⟨1, true, 0, none, none⟩ 0 [] [] rfl rfl

/-- Claim C5: a poll of an active reaper probes the owned handle first: a
probe reporting an exit status resolves the reaper to `Exited` with that
status immediately, with the notification stream and the orphan queue
untouched (independent of whether any event had arrived); conversely the
poll yields an exit status only when that probe reported it. -/
theorem claim_C5 (h : OsProc) (sig : SigStream) (q : OrphanQueueState) :
    (∀ s, try_wait h = Except.ok (some s) →
        pollActive h sig q =
          (PollRes.okR s, ⟨ReaperState.exited (Except.ok s), sig⟩, q))
    ∧ (∀ s, (pollActive h sig q).1 = PollRes.okR s →
        try_wait h = Except.ok (some s)) :=
  ⟨fun s hw => pollActive_some h sig q s hw,
   fun s hr => pollActive_okR_probe sig h q s hr⟩

/-- Witness for claim C5: an already-exited child resolves on the first
poll, leaving stream and queue untouched. -/
theorem claim_C5_witness :
    pollActive ⟨1, false, 5, none, none⟩ [SigPoll.event]
        [⟨9, true, 0, none, none⟩] =
      (PollRes.okR 5, ⟨ReaperState.exited (Except.ok 5), [SigPoll.event]⟩,
       [⟨9, true, 0, none, none⟩]) :=
  (claim_C5 ⟨1, false, 5, none, none⟩ [SigPoll.event]
    [⟨9, true, 0, none, none⟩]).1 5 rfl

/-- Claim C6: the final result is produced at most once and never before a
successful exit-status probe: a reaper that has resolved returns its stored
result on any further poll without touching the OS handle (there is none
left in the `Exited` state) or the orphan queue, and a poll can only
produce a final exit status that its own successful probe reported. -/
theorem claim_C6 (res : Except IOErr Int) (sig : SigStream)
    (q : OrphanQueueState) (h : OsProc) (s : Int) :
    reaperPoll ⟨ReaperState.exited res, sig⟩ q
        = (resOf res, ⟨ReaperState.exited res, sig⟩, q)
    ∧ ((pollActive h sig q).1 = PollRes.okR s →
        try_wait h = Except.ok (some s)) :=
  ⟨rfl, fun hr => pollActive_okR_probe sig h q s hr⟩

/-- Witness for claim C6: a resolved reaper re-polled returns the same
result with everything unchanged, and a concrete resolving poll is backed
by a successful probe. -/
theorem claim_C6_witness :
    reaperPoll ⟨ReaperState.exited (Except.ok 3), []⟩ []
        = (PollRes.okR 3, ⟨ReaperState.exited (Except.ok 3), []⟩, [])
    ∧ try_wait ⟨1, false, 3, none, none⟩ = Except.ok (some 3) :=
  ⟨(claim_C6 (Except.ok 3) [] [] ⟨1, false, 3, none, none⟩ 3).1,
   (claim_C6 (Except.ok 3) [] [] ⟨1, false, 3, none, none⟩ 3).2 rfl⟩

/-- Claim C7: a probe that fails at the OS level resolves the reaper
immediately with that error as its final result, with stream and queue
untouched, and a later poll of the resolved reaper returns the same error
without retrying the probe. -/
theorem claim_C7 (h : OsProc) (e : Nat) (sig sig2 : SigStream)
    (q q2 : OrphanQueueState) (hw : try_wait h = Except.error e) :
    pollActive h sig q =
      (PollRes.errR (IOErr.os e),
       ⟨ReaperState.exited (Except.error (IOErr.os e)), sig⟩, q)
    ∧ reaperPoll ⟨ReaperState.exited (Except.error (IOErr.os e)), sig2⟩ q2
        = (PollRes.errR (IOErr.os e),
           ⟨ReaperState.exited (Except.error (IOErr.os e)), sig2⟩, q2) :=
  ⟨pollActive_err h sig q e hw, rfl⟩

/-- Witness for claim C7: a concrete handle whose probe fails with OS error
13 resolves the reaper to that error, and re-polling repeats it without a
probe. -/
theorem claim_C7_witness :
    pollActive ⟨1, true, 0, some 13, none⟩ [SigPoll.event] [] =
      (PollRes.errR (IOErr.os 13),
       ⟨ReaperState.exited (Except.error (IOErr.os 13)), [SigPoll.event]⟩, [])
    ∧ reaperPoll ⟨ReaperState.exited (Except.error (IOErr.os 13)), []⟩ []
        = (PollRes.errR (IOErr.os 13),
           ⟨ReaperState.exited (Except.error (IOErr.os 13)), []⟩, []) :=
  claim_C7 ⟨1, true, 0, some 13, none⟩ 13 [SigPoll.event] [] [] [] rfl

/-- Claim C8: a failing kill is reported only to the caller of kill and
leaves the child (and hence the in-flight wait) exactly as it was; a
successful kill of a long-running child followed by awaiting its reaper
resolves to the signaled, non-zero exit status, not to an error. -/
theorem claim_C8 (h : OsProc) (sig : SigStream) (st : ProcessState)
    (e : Nat) :
    (h.killErr = some e →
        Child.killC ⟨⟨ReaperState.active h, sig⟩⟩
          = (Except.error e, ⟨⟨ReaperState.active h, sig⟩⟩))
    ∧ (h.killErr = none → h.alive = true → h.probeErr = none →
        (Child.killC ⟨⟨ReaperState.active h, sig⟩⟩).1 = Except.ok ()
        ∧ (Child.pollC (Child.killC ⟨⟨ReaperState.active h, sig⟩⟩).2 st).1
            = PollRes.okR killedStatus
        ∧ killedStatus ≠ 0) := by
  constructor
  · intro hk
    simp [Child.killC, reaperKill, osKill, hk]
  · intro hk ha hp
    have h1 : Child.killC ⟨⟨ReaperState.active h, sig⟩⟩
        = (Except.ok (),
           ⟨⟨ReaperState.active
               { h with alive := false, status := killedStatus }, sig⟩⟩) := by
      simp [Child.killC, reaperKill, osKill, hk, ha]
    have hw : try_wait { h with alive := false, status := killedStatus }
        = Except.ok (some killedStatus) := by
      simp [try_wait, hp]
    refine ⟨by rw [h1], ?_, by decide⟩
    rw [h1]
    simp [Child.pollC, reaperPoll,
          pollActive_some _ sig st.orphanQueue killedStatus hw]

/-- Witness for claim C8: a refused kill surfaces its error and leaves the
reaper untouched; killing a concrete running child and then polling its
reaper yields the non-zero signaled status. -/
theorem claim_C8_witness :
    Child.killC ⟨⟨ReaperState.active ⟨1, true, 0, none, some 1⟩, []⟩⟩
        = (Except.error 1,
           ⟨⟨ReaperState.active ⟨1, true, 0, none, some 1⟩, []⟩⟩)
    ∧ ((Child.killC ⟨⟨ReaperState.active ⟨2, true, 0, none, none⟩, []⟩⟩).1
          = Except.ok ()
        ∧ (Child.pollC
            (Child.killC
              ⟨⟨ReaperState.active ⟨2, true, 0, none, none⟩, []⟩⟩).2
            ⟨[]⟩).1 = PollRes.okR killedStatus
        ∧ killedStatus ≠ 0) :=
  ⟨(claim_C8 ⟨1, true, 0, none, some 1⟩ [] ⟨[]⟩ 1).1 rfl,
   (claim_C8 ⟨2, true, 0, none, none⟩ [] ⟨[]⟩ 0).2 rfl rfl rfl⟩

/-- Claim C9: every child constructed by `spawn_child` is wired to
`GlobalOrphanQueue`, whose push and reap both delegate to the single
process-wide static `ORPHAN_QUEUE`: one child's teardown enqueues its
handle into that static queue, and any other child's poll drains the very
same queue, so it reclaims the first child's orphan on the next observed
event. -/
theorem claim_C9 (cmdA cmdB : Command) (hA hB : OsProc)
    (sigA rest : SigStream) (st : ProcessState)
    (hAspawn : cmdA.spawnRes = Except.ok hA)
    (hAin : cmdA.stdin = none) (hAout : cmdA.stdout = none)
    (hAerr : cmdA.stderr = none)
    (hBspawn : cmdB.spawnRes = Except.ok hB)
    (hBin : cmdB.stdin = none) (hBout : cmdB.stdout = none)
    (hBerr : cmdB.stderr = none)
    (hex : exitedH hA = true)
    (hBalive : hB.alive = true) (hBprobe : hB.probeErr = none) :
    (spawn_child cmdA sigA st).1
        = Except.ok ⟨⟨Reaper.new hA sigA⟩, none, none, none⟩
    ∧ (spawn_child cmdB (SigPoll.event :: rest) st).1
        = Except.ok ⟨⟨Reaper.new hB (SigPoll.event :: rest)⟩, none, none, none⟩
    ∧ (Child.dropC ⟨Reaper.new hA sigA⟩ st).orphanQueue
        = hA :: st.orphanQueue
    ∧ hA ∉ (Child.pollC ⟨Reaper.new hB (SigPoll.event :: rest)⟩
              (Child.dropC ⟨Reaper.new hA sigA⟩ st)).2.2.orphanQueue := by
  have hwB : try_wait hB = Except.ok none := by
    simp [try_wait, hBprobe, hBalive]
  refine ⟨?_, ?_, rfl, ?_⟩
  · simp [spawn_child, hAspawn, hAin, hAout, hAerr, stdio]
  · simp [spawn_child, hBspawn, hBin, hBout, hBerr, stdio]
  · simp only [Child.pollC, Child.dropC, Reaper.new, reaperPoll, reaperDrop,
               push_orphan]
    exact pollActive_event_removes hB hA rest (hA :: st.orphanQueue) hwB hex

/-- Witness for claim C9: two concrete children spawned from the same
process state; the first one's discarded handle is drained by the second
one's poll. -/
theorem claim_C9_witness :
    (spawn_child ⟨Except.ok ⟨1, false, 0, none, none⟩, none, none, none⟩
        [] ⟨[]⟩).1
        = Except.ok ⟨⟨Reaper.new ⟨1, false, 0, none, none⟩ []⟩,
            none, none, none⟩
    ∧ (spawn_child ⟨Except.ok ⟨2, true, 0, none, none⟩, none, none, none⟩
        (SigPoll.event :: []) ⟨[]⟩).1
        = Except.ok ⟨⟨Reaper.new ⟨2, true, 0, none, none⟩
            (SigPoll.event :: [])⟩, none, none, none⟩
    ∧ (Child.dropC ⟨Reaper.new ⟨1, false, 0, none, none⟩ []⟩
        ⟨[]⟩).orphanQueue = [⟨1, false, 0, none, none⟩]
    ∧ (⟨1, false, 0, none, none⟩ : OsProc) ∉
        (Child.pollC ⟨Reaper.new ⟨2, true, 0, none, none⟩
            (SigPoll.event :: [])⟩
          (Child.dropC ⟨Reaper.new ⟨1, false, 0, none, none⟩ []⟩
            ⟨[]⟩)).2.2.orphanQueue :=
  claim_C9 ⟨Except.ok ⟨1, false, 0, none, none⟩, none, none, none⟩
    ⟨Except.ok ⟨2, true, 0, none, none⟩, none, none, none⟩
    ⟨1, false, 0, none, none⟩ ⟨2, true, 0, none, none⟩ [] [] ⟨[]⟩
    rfl rfl rfl rfl rfl rfl rfl rfl rfl rfl rfl

/-- Claim C10: when the spawn itself succeeded but making one of the
child's stdio descriptors non-blocking fails — `fcntl` returning `-1` on
`F_GETFL` or `F_SETFL` makes `stdio` return the last OS error —
`spawn_child` short-circuits with that error: no `Child` is constructed
(the error branch carries none), the spawned handle is not wrapped in a
reaper, and the process state, in particular the orphan queue, is returned
unchanged. -/
theorem claim_C10 (cmd : Command) (sig : SigStream) (st : ProcessState)
    (child : OsProc) (e : Nat) (io : RawIo)
    (hs : cmd.spawnRes = Except.ok child) :
    (io.getflRes = none → stdio (some io) = Except.error io.osErr)
    ∧ (io.setflErr = true → stdio (some io) = Except.error io.osErr)
    ∧ (stdio cmd.stdin = Except.error e →
        spawn_child cmd sig st = (Except.error e, st))
    ∧ (∀ x, stdio cmd.stdin = Except.ok x →
        stdio cmd.stdout = Except.error e →
        spawn_child cmd sig st = (Except.error e, st))
    ∧ (∀ x y, stdio cmd.stdin = Except.ok x →
        stdio cmd.stdout = Except.ok y →
        stdio cmd.stderr = Except.error e →
        spawn_child cmd sig st = (Except.error e, st)) := by
  refine ⟨?_, ?_, ?_, ?_, ?_⟩
  · intro hg
    simp [stdio, hg]
  · intro hsf
    cases hg : io.getflRes <;> simp [stdio, hg, hsf]
  · intro h1
    simp [spawn_child, hs, h1]
  · intro x h1 h2
    simp [spawn_child, hs, h1, h2]
  · intro x y h1 h2 h3
    simp [spawn_child, hs, h1, h2, h3]

/-- Witness for claim C10: a concrete spawned child whose stdin cannot be
made non-blocking (`F_GETFL` fails with OS error 9): `spawn_child` returns
error 9 and the process state is untouched. -/
theorem claim_C10_witness :
    (stdio (some ⟨5, none, false, 9, none⟩) = Except.error 9)
    ∧ spawn_child
        ⟨Except.ok ⟨1, true, 0, none, none⟩,
         some ⟨5, none, false, 9, none⟩, none, none⟩ [] ⟨[]⟩
        = (Except.error 9, ⟨[]⟩) :=
  ⟨(claim_C10 ⟨Except.ok ⟨1, true, 0, none, none⟩,
      some ⟨5, none, false, 9, none⟩, none, none⟩ [] ⟨[]⟩
      ⟨1, true, 0, none, none⟩ 9 ⟨5, none, false, 9, none⟩ rfl).1 rfl,
   (claim_C10 ⟨Except.ok ⟨1, true, 0, none, none⟩,
      some ⟨5, none, false, 9, none⟩, none, none⟩ [] ⟨[]⟩
      ⟨1, true, 0, none, none⟩ 9 ⟨5, none, false, 9, none⟩ rfl).2.2.1 rfl⟩

end TokioProcess
